import Mathlib

/-!
Verification development for the hh-vacancy compensation-extraction and
statistics core (src/backend/hh_parser_ver2.py and src/backend/analytics.py).

The Python code drives its text extraction through CPython regular
expressions built with rf-string literals.  Because several of those
literals leave the quantifier braces unescaped, Python evaluates the
fragment between the braces as an expression: the fragment 2-comma becomes
the tuple (2,) and the fragment 0-comma-20 becomes (0, 20), so the final
pattern strings contain the literal parenthesised text.  The regex ASTs
below transcribe the pattern strings exactly as CPython receives them
after f-string interpolation.

To settle the claims we embed a small backtracking matcher that reproduces
the CPython `re` behaviour needed by these fixed patterns: ordered
alternation, greedy quantifiers, capture groups, lookahead, negative
lookahead and word boundaries.  Character classes are interpreted over the
character repertoire actually reachable in this code base (ASCII plus
Cyrillic plus the rouble sign and no-break space); this matches the
Unicode semantics of CPython `re` on every string occurring here.
Numbers are modelled exactly with `Rat`; the float values occurring in the
claims are all exactly representable, so no behaviour relevant to a claim
depends on binary rounding.
-/

/-- ASCII decimal digit test, the interpretation of the regex class d. -/
def pyDigit (c : Char) : Bool :=
  '0' ≤ c && c ≤ '9'

/-- Whitespace test for the regex class s: ASCII whitespace together with
the no-break space, which CPython treats as whitespace in Unicode mode. -/
def pySpace (c : Char) : Bool :=
  c = ' ' || c = '\t' || c = '\n' || c = '\r' || c = '\u000b' || c = '\u000c' || c = ' '

/-- Cyrillic letter test (basic range plus the two yo forms). -/
def cyrLetter (c : Char) : Bool :=
  ('а' ≤ c && c ≤ 'я') || ('А' ≤ c && c ≤ 'Я') || c = 'ё' || c = 'Ё'

/-- Word-character test for the regex class w and for word boundaries,
restricted to the repertoire of this code base (ASCII letters, digits,
underscore and Cyrillic letters, exactly as CPython classifies them). -/
def pyWord (c : Char) : Bool :=
  pyDigit c || ('a' ≤ c && c ≤ 'z') || ('A' ≤ c && c ≤ 'Z') || c = '_' || cyrLetter c

/-- Lower-casing as performed by str.lower on the repertoire of this code
base: ASCII upper case and Cyrillic upper case map down, everything else
is fixed. -/
def lowerChar (c : Char) : Char :=
  if 'A' ≤ c && c ≤ 'Z' then Char.ofNat (c.toNat + 32)
  else if 'А' ≤ c && c ≤ 'Я' then Char.ofNat (c.toNat + 32)
  else if c = 'Ё' then 'ё'
  else c

/-- str.lower over a character list. -/
def pyLower (s : List Char) : List Char :=
  s.map lowerChar

/-- One item of a regex character class. -/
inductive CItem where
  | lit (c : Char)
  | digit
  | space
  | wordc
  | all
deriving DecidableEq

/-- Does a class item accept a character. -/
def citemMatch : CItem → Char → Bool
  | .lit c, c2 => c2 = c
  | .digit, c2 => pyDigit c2
  | .space, c2 => pySpace c2
  | .wordc, c2 => pyWord c2
  | .all, _ => true

/-- Does a (possibly negated) character class accept a character. -/
def clsMatch (neg : Bool) (items : List CItem) (c : Char) : Bool :=
  let m := items.any (fun it => citemMatch it c)
  if neg then !m else m

/-- Regex term shape: the fragment of CPython `re` exercised by the
fixed patterns of hh_parser_ver2.py. -/
inductive RE where
  | eps
  | lit (c : Char)
  | cls (neg : Bool) (items : List CItem)
  | seq (a b : RE)
  | alt (a b : RE)
  | rep (lo : Nat) (hi : Option Nat) (a : RE)
  | grp (i : Nat) (a : RE)
  | look (pos : Bool) (a : RE)
  | bnd

/-- Captured spans: group index, start offset, stop offset.  The most
recent capture of a group is listed first, matching the last-capture-wins
rule of CPython. -/
abbrev Caps := List (Nat × Nat × Nat)

/-- Is the character at offset i a word character (false off the ends). -/
def isWordAt (s : List Char) (i : Nat) : Bool :=
  match s.get? i with
  | some c => pyWord c
  | none => false

/-- Word-boundary test at offset i. -/
def boundaryAt (s : List Char) (i : Nat) : Bool :=
  let prev := if i = 0 then false else isWordAt s (i - 1)
  prev != isWordAt s i

/-- Backtracking matcher.  Given fuel, the subject, a regex, a start
offset and the captures so far, it returns every way the regex can match
at that offset, as (stop offset, captures) pairs, ordered exactly by the
CPython backtracking preference: earlier alternatives first, and greedy
repetition longest first.  The fuel bounds the recursion depth; every
evaluation in this file stays far below the bound. -/
def reRun : Nat → List Char → RE → Nat → Caps → List (Nat × Caps)
  | 0, _, _, _, _ => []
  | Nat.succ f, s, re, i, caps =>
    match re with
    | .eps => [(i, caps)]
    | .lit c =>
      match s.get? i with
      | some c2 => if c2 = c then [(i + 1, caps)] else []
      | none => []
    | .cls n its =>
      match s.get? i with
      | some c2 => if clsMatch n its c2 then [(i + 1, caps)] else []
      | none => []
    | .seq a b =>
      (reRun f s a i caps).flatMap (fun r => reRun f s b r.1 r.2)
    | .alt a b =>
      reRun f s a i caps ++ reRun f s b i caps
    | .grp k a =>
      (reRun f s a i caps).map (fun r => (r.1, (k, i, r.1) :: r.2))
    | .look p a =>
      let rs := reRun f s a i caps
      if p then
        match rs with
        | [] => []
        | r :: _ => [(i, r.2)]
      else
        match rs with
        | [] => [(i, caps)]
        | _ :: _ => []
    | .bnd => if boundaryAt s i then [(i, caps)] else []
    | .rep lo hi a =>
      match lo with
      | Nat.succ lo2 =>
        (reRun f s a i caps).flatMap
          (fun r => reRun f s (.rep lo2 (hi.map (· - 1)) a) r.1 r.2)
      | 0 =>
        match hi with
        | some 0 => [(i, caps)]
        | _ =>
          ((reRun f s a i caps).flatMap
            (fun r => reRun f s (.rep 0 (hi.map (· - 1)) a) r.1 r.2)) ++ [(i, caps)]

/-- Fuel ample for every pattern and subject in this development. -/
def reFuel : Nat := 700

/-- First match of a regex anchored at offset i, if any. -/
def reMatchAt (s : List Char) (re : RE) (i : Nat) : Option (Nat × Caps) :=
  (reRun reFuel s re i []).head?

/-- Leftmost match scanning from offset i, as (start, stop, captures);
the first argument is a countdown bounding the scan. -/
def reSearchFrom : Nat → List Char → RE → Nat → Option (Nat × Nat × Caps)
  | 0, _, _, _ => none
  | Nat.succ f, s, re, i =>
    match reMatchAt s re i with
    | some r => some (i, r.1, r.2)
    | none => if i < s.length then reSearchFrom f s re (i + 1) else none

/-- re.search: leftmost match in the whole subject. -/
def reSearch (s : List Char) (re : RE) : Option (Nat × Nat × Caps) :=
  reSearchFrom (s.length + 1) s re 0

/-- Successive non-overlapping matches from offset i, as re.finditer
produces them; the first argument is a countdown bounding the scan. -/
def reFindFrom : Nat → List Char → RE → Nat → List (Nat × Nat × Caps)
  | 0, _, _, _ => []
  | Nat.succ f, s, re, i =>
    match reSearchFrom (s.length + 1 - i) s re i with
    | none => []
    | some m => m :: reFindFrom f s re (if m.1 < m.2.1 then m.2.1 else m.2.1 + 1)

/-- re.finditer over the whole subject. -/
def reFindAll (s : List Char) (re : RE) : List (Nat × Nat × Caps) :=
  reFindFrom (s.length + 1) s re 0

/-- re.fullmatch viewed as a Boolean: some backtracking path consumes the
whole subject. -/
def reFullmatch (s : List Char) (re : RE) : Bool :=
  (reRun reFuel s re 0 []).any (fun r => r.1 = s.length)

/-- The span of a capture group, most recent capture first. -/
def capLookup (caps : Caps) (k : Nat) : Option (Nat × Nat) :=
  (caps.find? (fun c => c.1 = k)).map (fun c => (c.2.1, c.2.2))

/-- Subject slice between two offsets. -/
def sliceChars (s : List Char) (a b : Nat) : List Char :=
  (s.drop a).take (b - a)

/-- m.group(k) for a participating group, none when the group did not
take part in the match. -/
def matchGroup (s : List Char) (caps : Caps) (k : Nat) : Option (List Char) :=
  (capLookup caps k).map (fun p => sliceChars s p.1 p.2)

/-- Sequential composition of a pattern list. -/
def rcat (l : List RE) : RE :=
  l.foldr RE.seq RE.eps

/-- Ordered alternation of a pattern list. -/
def ralts : List RE → RE
  | [] => RE.eps
  | [r] => r
  | r :: rs => RE.alt r (ralts rs)

/-- Literal string pattern. -/
def rstr (s : String) : RE :=
  rcat (s.toList.map RE.lit)

/-- Optional pattern, the question-mark quantifier. -/
def ropt (r : RE) : RE :=
  RE.rep 0 (some 1) r

/-- Kleene star. -/
def rstar (r : RE) : RE :=
  RE.rep 0 none r

/-- One-or-more repetition. -/
def rplus (r : RE) : RE :=
  RE.rep 1 none r

/-- Plain character class from a list of literals. -/
def oneOf (cs : List Char) : RE :=
  RE.cls false (cs.map CItem.lit)

/-- The regex class d. -/
def DIGC : RE := RE.cls false [CItem.digit]

/-- The regex class s. -/
def SPC : RE := RE.cls false [CItem.space]

/-- The regex class w. -/
def WRD : RE := RE.cls false [CItem.wordc]

/-- The class accepting every character, the transcription of the
class that lists both s and capital S. -/
def ANYC : RE := RE.cls false [CItem.all]

/-- The regex dot: any character except newline. -/
def DOTC : RE := RE.cls true [CItem.lit '\n']

/-!
Transcription of the fixed pattern strings of hh_parser_ver2.py, exactly
as CPython receives them after rf-string interpolation.  In the simple
patterns (source lines 219-232) and in range patterns four and five
(source lines 249 and 251) the unescaped quantifier braces were evaluated
by the f-string, so the numeric capture is the three-node sequence
digit, one separator-class character, then a nested group holding the
literal two characters 2-comma; and the twenty-character window of the
negative lookahead is the literal five characters 0-comma-space-2-0.
Range patterns one, two, three and six (source lines 243, 245, 247, 253)
escaped their braces and kept real quantifiers.
-/

/-- The shift token: smen with an optional ending vowel, or sm with an
optional dot, followed by a lookahead requiring a word boundary. -/
def shiftTok : RE :=
  RE.seq
    (RE.alt (rcat [rstr "смен", ropt (oneOf ['а', 'у', 'ы', 'е', 'е'])])
            (rcat [rstr "см", ropt (RE.lit '.')]))
    (RE.look true RE.bnd)

/-- Rouble units: the rouble sign, r or rub with optional dot, Latin rub
and rur, and the inflected Russian word forms. -/
def rubleUnits : RE :=
  ralts
    [ rstr "₽"
    , rcat [RE.lit 'р', ropt (RE.lit '.')]
    , rcat [rstr "руб", ropt (RE.lit '.')]
    , rstr "rub"
    , rstr "rur"
    , rcat [rstr "рубл", ropt (ralts [rstr "ей", rstr "я", rstr "и", rstr "ь"])] ]

/-- The optional thousand-unit suffix appearing after the number in the
simple patterns. -/
def thousandSuffix : RE :=
  ralts
    [ rcat [rstr "тыс", ropt (RE.lit '.')]
    , rstr "тысяч"
    , rcat [RE.lit 'т', ropt (RE.lit '.'), rstar SPC, RE.lit 'р', ropt (RE.lit '.')]
    , rstr "тр"
    , rstr "k"
    , rstr "к" ]

/-- The separator class of the numeric capture: digits, whitespace, dot
and comma. -/
def numCls : RE :=
  RE.cls false [CItem.digit, CItem.space, CItem.lit '.', CItem.lit ',']

/-- The corrupted numeric capture of the unescaped patterns: group k
matches one digit, one separator-class character and then the nested
group k+1 holding the literal characters 2-comma. -/
def numMangled (k : Nat) : RE :=
  RE.grp k (rcat [DIGC, numCls, RE.grp (k + 1) (rcat [RE.lit '2', RE.lit ','])])

/-- The intact numeric capture of the escaped patterns: group k matches
one digit followed by two or more separator-class characters. -/
def numIntact (k : Nat) : RE :=
  RE.grp k (rcat [DIGC, RE.rep 2 none numCls])

/-- Optional colon or dash between a marker and the number. -/
def dashOpt : RE :=
  ropt (oneOf [':', '-', '–', '—'])

/-- The dash-or-slash separator class of the range patterns. -/
def sepCls : RE :=
  oneOf ['-', '–', '—', '/']

/-- Slash-shift or za-shift tail shared by several patterns. -/
def perShiftTail : RE :=
  RE.alt (rcat [RE.lit '/', rstar SPC, shiftTok])
         (rcat [rstr "за", rplus SPC, shiftTok])

/-- Head of the shift-schedule patterns: smenn-word then grafik with an
optional raboty, or grafik with optional raboty then smenn-word. -/
def smenGrafHead : RE :=
  RE.alt
    (rcat [rstr "сменн", rstar WRD, rplus SPC, rstr "график",
           ropt (rcat [rstar SPC, rstr "работы"])])
    (rcat [rstr "график", ropt (rcat [rplus SPC, rstr "работы"]), rplus SPC,
           rstr "сменн", rstar WRD])

/-- The month-word alternation inside the negative lookahead of the
shift-schedule patterns. -/
def monthWords : RE :=
  ralts
    [ rcat [ropt (RE.lit '/'), rstar SPC, rstr "мес", ropt (rstr "яц")]
    , rcat [rstr "в", rstar SPC, rstr "месяц"]
    , rcat [RE.lit '/', rstar SPC, rstr "month"]
    , rcat [rstr "per", rstar SPC, rstr "month"] ]

/-- The optional opл/ставка word of the posmen and grafik patterns. -/
def oplataOpt : RE :=
  ropt (RE.alt (rstr "оплата") (rstr "ставка"))

/-- Simple pattern 1 (source line 221): za shift, optional dash, number,
optional thousand suffix. -/
def patSimple1 : RE :=
  rcat [rstr "за", rplus SPC, shiftTok, rstar SPC, dashOpt, rstar SPC,
        numMangled 1, ropt (rcat [rstar SPC, thousandSuffix])]

/-- Simple pattern 2 (source line 223): number, optional rouble unit,
slash-shift or za-shift. -/
def patSimple2 : RE :=
  rcat [numMangled 1, rstar SPC, ropt rubleUnits, rstar SPC, perShiftTail]

/-- Simple pattern 3 (source line 225): shift, optional dash, number,
optional rouble unit, optional thousand suffix. -/
def patSimple3 : RE :=
  rcat [shiftTok, rstar SPC, dashOpt, rstar SPC, numMangled 1, rstar SPC,
        ropt rubleUnits, ropt (rcat [rstar SPC, thousandSuffix])]

/-- Simple pattern 4 (source line 227): number, optional rouble unit,
slash, shift, optional thousand suffix. -/
def patSimple4 : RE :=
  rcat [numMangled 1, rstar SPC, ropt rubleUnits, rstar SPC, RE.lit '/',
        rstar SPC, shiftTok, ropt (rcat [rstar SPC, thousandSuffix])]

/-- Simple pattern 5 (source line 229): posmen-word, optional oplata or
stavka, optional dash, number, optional rouble unit, optional thousand
suffix. -/
def patSimple5 : RE :=
  rcat [rstr "посмен", rstar WRD, rstar SPC, oplataOpt, rstar SPC, dashOpt,
        rstar SPC, numMangled 1, rstar SPC, ropt rubleUnits,
        ropt (rcat [rstar SPC, thousandSuffix])]

/-- Simple pattern 6 (source line 231): shift-schedule head, optional
oplata or stavka, optional dash, number, a lookahead requiring an
optional rouble unit then a word boundary, and a negative lookahead whose
twenty-character window collapsed to one any-character node followed by
the literal group 0-comma-space-2-0. -/
def patSimple6 : RE :=
  rcat [smenGrafHead, rstar SPC, oplataOpt, rstar SPC, dashOpt, rstar SPC,
        numMangled 1,
        RE.look true (rcat [ropt (rcat [rstar SPC, rubleUnits]), RE.bnd]),
        RE.look false (rcat [ANYC, RE.grp 3 (rstr "0, 20"), RE.bnd,
                             monthWords, RE.bnd])]

/-- The simple pattern list in source order. -/
def simplePats : List RE :=
  [patSimple1, patSimple2, patSimple3, patSimple4, patSimple5, patSimple6]

/-- Range pattern 1 (source line 243): number, separator, number,
optional rouble unit, slash-shift or za-shift. -/
def patRange1 : RE :=
  rcat [numIntact 1, rstar SPC, sepCls, rstar SPC, numIntact 2, rstar SPC,
        ropt rubleUnits, rstar SPC, perShiftTail]

/-- Range pattern 2 (source line 245): za shift, optional dash, number,
separator, number. -/
def patRange2 : RE :=
  rcat [rstr "за", rplus SPC, shiftTok, rstar SPC, dashOpt, rstar SPC,
        numIntact 1, rstar SPC, sepCls, rstar SPC, numIntact 2]

/-- Range pattern 3 (source line 247): shift, optional dash, number,
separator, number. -/
def patRange3 : RE :=
  rcat [shiftTok, rstar SPC, dashOpt, rstar SPC, numIntact 1, rstar SPC,
        sepCls, rstar SPC, numIntact 2]

/-- Range pattern 4 (source line 249, braces unescaped): posmen-word,
optional oplata or stavka, optional dash, corrupted number as group 1,
separator, corrupted number as group 3, optional rouble unit.  The code
reads groups 1 and 2, so its second value is the literal 2-comma text of
the nested group. -/
def patRange4 : RE :=
  rcat [rstr "посмен", rstar WRD, rstar SPC, oplataOpt, rstar SPC, dashOpt,
        rstar SPC, numMangled 1, rstar SPC, sepCls, rstar SPC, numMangled 3,
        rstar SPC, ropt rubleUnits]

/-- Range pattern 5 (source line 251, braces unescaped): shift-schedule
head, optional oplata or stavka, optional dash, corrupted number as group
1, separator, corrupted number as group 3, the boundary lookahead and the
collapsed negative lookahead with the literal group as group 5. -/
def patRange5 : RE :=
  rcat [smenGrafHead, rstar SPC, oplataOpt, rstar SPC, dashOpt, rstar SPC,
        numMangled 1, rstar SPC, sepCls, rstar SPC, numMangled 3,
        RE.look true (rcat [ropt (rcat [rstar SPC, rubleUnits]), RE.bnd]),
        RE.look false (rcat [ANYC, RE.grp 5 (rstr "0, 20"), RE.bnd,
                             monthWords, RE.bnd])]

/-- Range pattern 6 (source line 253): optional za-shift, ot, number,
optional unit, do, number, up to twenty arbitrary characters, slash-shift
or za-shift. -/
def patRange6 : RE :=
  rcat [ropt (rcat [rstr "за", rplus SPC, shiftTok, rstar SPC]),
        rstr "от", rstar SPC, numIntact 1, rstar SPC,
        ropt (ralts [rubleUnits,
                     rcat [rstr "тыс", ropt (RE.lit '.')],
                     rcat [RE.lit 'т', ropt (RE.lit '.'), rstar SPC,
                           RE.lit 'р', ropt (RE.lit '.')],
                     rstr "тр", rstr "k", rstr "к"]),
        rstar SPC, rstr "до", rstar SPC, numIntact 2,
        RE.rep 0 (some 20) DOTC, perShiftTail]

/-- The range pattern list in source order. -/
def rangePats : List RE :=
  [patRange1, patRange2, patRange3, patRange4, patRange5, patRange6]

/-- The month-unit alternation of the shift-count patterns. -/
def mesAlt : RE :=
  RE.alt (rcat [rstr "в", rstar SPC, rstr "мес", ropt (rstr "яц")])
         (rcat [RE.lit '/', rstar SPC, rstr "мес"])

/-- The week-unit alternation of the shift-count patterns. -/
def nedAlt : RE :=
  RE.alt (rcat [rstr "в", rstar SPC, rstr "недел", oneOf ['ю', 'и']])
         (rcat [RE.lit '/', rstar SPC, rstr "нед"])

/-- One-or-two-digit capture as group k. -/
def dig12 (k : Nat) : RE :=
  RE.grp k (RE.rep 1 (some 2) DIGC)

/-- Month pattern, direct form (source line 277): count, optional dashed
upper count, smen-word, month unit, boundary. -/
def patMonth1 : RE :=
  rcat [dig12 1, rstar SPC,
        ropt (rcat [oneOf ['-', '–', '—'], rstar SPC, dig12 2]),
        rstar SPC, rstr "смен", ropt (oneOf ['а', 'ы']), rstar SPC,
        mesAlt, RE.bnd]

/-- Month pattern, reversed form (source line 283): month unit, count,
smen-word, boundary.  This pattern has a single capture group. -/
def patMonth2 : RE :=
  rcat [mesAlt, rstar SPC, dig12 1, rstar SPC, rstr "смен",
        ropt (oneOf ['а', 'ы']), RE.bnd]

/-- Week pattern, direct form (source line 298). -/
def patWeek1 : RE :=
  rcat [dig12 1, rstar SPC,
        ropt (rcat [oneOf ['-', '–', '—'], rstar SPC, dig12 2]),
        rstar SPC, rstr "смен", ropt (oneOf ['а', 'ы']), rstar SPC,
        nedAlt, RE.bnd]

/-- Week pattern, reversed form (source line 303), a single group. -/
def patWeek2 : RE :=
  rcat [nedAlt, rstar SPC, dig12 1, rstar SPC, rstr "смен",
        ropt (oneOf ['а', 'ы']), RE.bnd]

/-- Ratio-schedule pattern (source line 318): boundary, count, slash,
count, boundary. -/
def patSched : RE :=
  rcat [RE.bnd, dig12 1, rstar SPC, RE.lit '/', rstar SPC, dig12 2, RE.bnd]

/-- Rotation idiom: one day on, two off. -/
def patSutki2 : RE :=
  rcat [rstr "сутки", rplus SPC, rstr "через", rplus SPC, rstr "двое"]

/-- Rotation idiom: one day on, three off. -/
def patSutki3 : RE :=
  rcat [rstr "сутки", rplus SPC, rstr "через", rplus SPC, rstr "трое"]

/-- Rotation idiom: one day on, one off. -/
def patSutki1 : RE :=
  rcat [rstr "сутки", rplus SPC, rstr "через", rplus SPC, rstr "сутки"]

/-- The thousand-marker search patterns of parse_ruble_amount, in source
order (source lines 160-162): tys, tysyach, t-dot-space-r-dot, tr with a
boundary, Latin k with a boundary, Cyrillic k with a boundary. -/
def thousandMarkerPats : List RE :=
  [ rstr "тыс"
  , rstr "тысяч"
  , rcat [RE.lit 'т', ropt (RE.lit '.'), rstar SPC, RE.lit 'р', ropt (RE.lit '.')]
  , rcat [rstr "тр", RE.bnd]
  , rcat [rstr "k", RE.bnd]
  , rcat [rstr "к", RE.bnd] ]

/-- Full-string shape of a dot-or-comma thousand-grouped integer
(source line 139): one to three digits, a separator, three digits. -/
def shapeGrouped : RE :=
  rcat [RE.rep 1 (some 3) DIGC, oneOf ['.', ','], DIGC, DIGC, DIGC]

/-- Full-string shape of a space-grouped integer (source line 140): one
to three digits then one or more groups of a space and three digits. -/
def shapeSpaced : RE :=
  rcat [RE.rep 1 (some 3) DIGC, rplus (rcat [SPC, DIGC, DIGC, DIGC])]

/-- Full-string shape of a decimal number (source line 141): digits, a
separator, digits. -/
def shapeDecimal : RE :=
  rcat [rplus DIGC, oneOf ['.', ','], rplus DIGC]

/-!
Numeric token parsing (hh_parser_ver2.py lines 113-173).
-/

/-- Numeric value of a digit list, most significant first. -/
def digitsToNat (cs : List Char) : Nat :=
  cs.foldl (fun n c => n * 10 + (c.toNat - 48)) 0

/-- Replace the no-break space by an ordinary space, as the source does
before cleaning. -/
def nbspToSpace (c : Char) : Char :=
  if c = ' ' then ' ' else c

/-- str.strip: remove whitespace from both ends. -/
def stripPy (cs : List Char) : List Char :=
  ((cs.dropWhile pySpace).reverse.dropWhile pySpace).reverse

/-- parse_number (source lines 113-125): replace no-break spaces, delete
spaces, commas and dots, and if the remainder is all digits return its
value.  Intended for counts, not monetary values. -/
def parse_number (cs : List Char) : Option ℚ :=
  let cleaned := (cs.map nbspToSpace).filter (fun c => !(c = ' ' || c = ',' || c = '.'))
  if cleaned ≠ [] ∧ cleaned.all pyDigit then some (digitsToNat cleaned : ℚ) else none

/-- Powers of ten as natural numbers. -/
def pow10 : Nat → Nat
  | 0 => 1
  | Nat.succ n => 10 * pow10 n

/-- float applied to a decimal string of shape digits, one dot, digits,
after the source has normalised commas to dots.  Exact rational value. -/
def parseDecimal (cs : List Char) : ℚ :=
  let intPart := cs.takeWhile pyDigit
  let rest := (cs.dropWhile pyDigit).drop 1
  (digitsToNat intPart : ℚ) + (digitsToNat rest : ℚ) / (pow10 rest.length : ℚ)

/-- Thousand-marker detection of parse_ruble_amount (source lines
156-166): search the lower-cased context for any of the six marker
patterns. -/
def hasThousandMarker (ctx : List Char) : Bool :=
  thousandMarkerPats.any (fun p => (reSearch ctx p).isSome)

/-- parse_ruble_amount over character lists (source lines 128-173).
The sample is the captured numeric group when it is present and does not
strip to nothing, else the full matched text.  The sample is classified
by full-string shape: space-grouped integers drop their spaces,
dot-or-comma-grouped integers that are not decimals drop their
separators, decimals normalise the comma and keep their fraction, and
anything else falls back to the count parser.  If the lower-cased full
text holds a thousand marker and the base value is at most 1000 the base
is multiplied by 1000. -/
def parseRubleChars (text_full : List Char) (numeric_group : Option (List Char)) :
    Option ℚ :=
  let sample :=
    match numeric_group with
    | some g => if stripPy g ≠ [] then g else text_full
    | none => text_full
  let s := stripPy (sample.map nbspToSpace)
  let thousandGrouped := reFullmatch s shapeGrouped
  let spacedGrouped := reFullmatch s shapeSpaced
  let decimalNumber := reFullmatch s shapeDecimal
  let base : Option ℚ :=
    if spacedGrouped then
      some (digitsToNat (s.filter (fun c => !pySpace c)) : ℚ)
    else if thousandGrouped && !decimalNumber then
      some (digitsToNat (s.filter (fun c => !(c = '.' || c = ','))) : ℚ)
    else if decimalNumber then
      some (parseDecimal (s.map (fun c => if c = ',' then '.' else c)))
    else
      parse_number s
  match base with
  | none => none
  | some b =>
    let ctx := pyLower text_full
    if hasThousandMarker ctx && b ≤ 1000 then some (b * 1000) else some b

/-- parse_ruble_amount with the string signature of the source. -/
def parse_ruble_amount (text_full : String) (numeric_group : Option String) :
    Option ℚ :=
  parseRubleChars text_full.toList (numeric_group.map String.toList)

/-!
The shift-pay extractor, estimate_monthly_salary_from_text
(hh_parser_ver2.py lines 176-348).  The whole body of the Python function
runs under one try-except that converts any exception to None; the model
therefore computes the body in Except, with the one genuinely reachable
exception modelled faithfully: when only the reversed month or week form
matches, the code evaluates m.group(2) on a single-group match object and
CPython raises an IndexError, caught by the outer handler.
-/

/-- The lower-cased text blob (source lines 190-195): space-join of
title, responsibility, requirement and description, absent fields taken
as the empty string. -/
def mkBlob (title responsibility : String) (requirement : Option String)
    (description_text : String) : List Char :=
  pyLower ((title ++ " " ++ responsibility ++ " " ++ requirement.getD "" ++ " "
            ++ description_text).toList)

/-- Simple-pattern candidates (source lines 234-238): for each simple
pattern, every match contributes parse_ruble_amount of the full match and
of group one, kept when it parses. -/
def simpleCandidates (blob : List Char) : List ℚ :=
  simplePats.flatMap (fun pat =>
    (reFindAll blob pat).filterMap (fun m =>
      parseRubleChars (sliceChars blob m.1 m.2.1) (matchGroup blob m.2.2 1)))

/-- Range-pattern candidates (source lines 256-261): for each range
pattern, every match contributes the mean of the parses of groups one and
two, kept when both parse. -/
def rangeCandidates (blob : List Char) : List ℚ :=
  rangePats.flatMap (fun pat =>
    (reFindAll blob pat).filterMap (fun m =>
      match parseRubleChars (sliceChars blob m.1 m.2.1) (matchGroup blob m.2.2 1),
            parseRubleChars (sliceChars blob m.1 m.2.1) (matchGroup blob m.2.2 2) with
      | some v1, some v2 => some ((v1 + v2) / 2)
      | _, _ => none))

/-- Candidate selection (source line 264): range candidates when any
exist, else the simple candidates. -/
def chosenCandidates (blob : List Char) : List ℚ :=
  if rangeCandidates blob = [] then simpleCandidates blob else rangeCandidates blob

/-- Explicit monthly shift count (source lines 276-293).  The direct form
has two groups; when only the reversed form matches, the code asks the
match object for group two, which does not exist, and CPython raises. -/
def monthFromExplicitE (blob : List Char) : Except String (Option ℚ) :=
  match reSearch blob patMonth1 with
  | some m =>
    let low := parse_number ((matchGroup blob m.2.2 1).getD [])
    let hi :=
      match matchGroup blob m.2.2 2 with
      | some g => if g ≠ [] then parse_number g else none
      | none => none
    .ok (match low with
         | some l => some (match hi with | some h => (l + h) / 2 | none => l)
         | none => none)
  | none =>
    match reSearch blob patMonth2 with
    | some _ => .error "no such group"
    | none => .ok none

/-- Explicit weekly shift count times 4.33 (source lines 296-312), with
the same single-group raise on the reversed form. -/
def weekFromExplicitE (blob : List Char) : Except String (Option ℚ) :=
  match reSearch blob patWeek1 with
  | some m =>
    let low := parse_number ((matchGroup blob m.2.2 1).getD [])
    let hi :=
      match matchGroup blob m.2.2 2 with
      | some g => if g ≠ [] then parse_number g else none
      | none => none
    .ok (match low with
         | some l =>
           some ((match hi with | some h => (l + h) / 2 | none => l) * (433 / 100))
         | none => none)
  | none =>
    match reSearch blob patWeek2 with
    | some _ => .error "no such group"
    | none => .ok none

/-- Ratio schedule inference (source lines 316-326): an on/off pair of
small integers yields thirty days times on over on-plus-off; values out
of the one-to-thirty-one range, like the exceptions of the inner try, are
swallowed locally and leave the count undetermined. -/
def schedRatio (blob : List Char) : Option ℚ :=
  match reSearch blob patSched with
  | some m =>
    let onDays := digitsToNat ((matchGroup blob m.2.2 1).getD [])
    let offDays := digitsToNat ((matchGroup blob m.2.2 2).getD [])
    if 0 < onDays ∧ onDays ≤ 31 ∧ 0 < offDays ∧ offDays ≤ 31 then
      some (30 * ((onDays : ℚ) / ((onDays : ℚ) + (offDays : ℚ))))
    else none
  | none => none

/-- Named rotation idioms (source lines 329-335), checked in source
order. -/
def sutkiIdiom (blob : List Char) : Option ℚ :=
  if (reSearch blob patSutki2).isSome then some (30 / 3)
  else if (reSearch blob patSutki3).isSome then some (30 / 4)
  else if (reSearch blob patSutki1).isSome then some (30 / 2)
  else none

/-- Monthly shift count (source lines 273-343): the explicit monthly
statement, else the weekly statement, else the ratio schedule, else the
rotation idiom, else the fallback constant fifteen, hard-clamped into the
six-to-twenty-six band. -/
def monthlyShiftsE (blob : List Char) : Except String ℚ :=
  match monthFromExplicitE blob with
  | .error e => .error e
  | .ok firstv =>
    match (match firstv with
           | some v => (Except.ok (some v) : Except String (Option ℚ))
           | none => weekFromExplicitE blob) with
    | .error e => .error e
    | .ok secondv =>
      let thirdv := match secondv with | some v => some v | none => schedRatio blob
      let fourthv := match thirdv with | some v => some v | none => sutkiIdiom blob
      let raw := fourthv.getD 15
      .ok (max 6 (min 26 raw))

/-- The body of the extractor under its try (source lines 188-346):
build the blob, collect candidates with range priority, return ok-none
when there are no candidates, else the mean candidate times the monthly
shift count, propagating the group-access exception. -/
def estimateBody (title responsibility : String) (requirement : Option String)
    (description_text : String) : Except String (Option ℚ) :=
  let blob := mkBlob title responsibility requirement description_text
  let cands := chosenCandidates blob
  if cands = [] then .ok none
  else
    match monthlyShiftsE blob with
    | .error e => .error e
    | .ok ms => .ok (some ((cands.sum / (cands.length : ℚ)) * ms))

/-- estimate_monthly_salary_from_text (source lines 176-348): the body
with every exception converted to None by the enclosing handler. -/
def estimate_monthly_salary_from_text (title responsibility : String)
    (requirement : Option String) (description_text : String) : Option ℚ :=
  match estimateBody title responsibility requirement description_text with
  | .ok v => v
  | .error _ => none

/-!
Structured records.  The Python code passes dictionaries around; the
model gives each dictionary shape an explicit structure whose fields are
the keys the core reads, with absent keys as none.
-/

/-- A structured salary object: the resume shape carries amount, the
vacancy shape carries the bounds.  The source reads fromKey and toKey
as the from and to keys. -/
structure SalaryObj where
  amount : Option ℚ
  fromKey : Option ℚ
  toKey : Option ℚ
deriving DecidableEq

/-- An object holding just a name, as the area, experience and schedule
sub-dictionaries do. -/
structure NameObj where
  name : Option String
deriving DecidableEq

/-- The employer sub-dictionary. -/
structure EmployerObj where
  id : Option String
  name : Option String
  trusted : Option Bool
deriving DecidableEq

/-- The snippet sub-dictionary. -/
structure SnippetObj where
  responsibility : Option String
  requirement : Option String
deriving DecidableEq

/-- A raw vacancy item as received from the fetch layer. -/
structure RawVacancy where
  id : Option String
  name : Option String
  salary : Option SalaryObj
  employer : Option EmployerObj
  experience : Option NameObj
  snippet : Option SnippetObj
  description_text : Option String
  area : Option NameObj
  schedule : Option NameObj
  published_at : Option String
  alternate_url : Option String
deriving DecidableEq

/-- The normalized vacancy record built by extract_vacancy_fields
(source lines 382-399); employer_mark is attached in a second pass and
starts empty. -/
structure VacancyRec where
  id : Option String
  title : String
  area : Option String
  published_at : Option String
  alternate_url : Option String
  salary : Option SalaryObj
  salary_avg : Option ℚ
  salary_estimated_monthly : Option ℚ
  salary_per_shift : Bool
  experience : Option String
  responsibility : String
  requirement : Option String
  employer_id : Option String
  employer_name : Option String
  employer_trusted : Option Bool
  schedule : Option String
  employer_mark : Option ℚ
deriving DecidableEq

/-- normalize_salary (source lines 97-110): an absent or empty object
gives nothing; a numeric amount is returned directly; otherwise the mean
of whichever bounds are numeric, or nothing when neither is. -/
def normalize_salary : Option SalaryObj → Option ℚ
  | none => none
  | some so =>
    match so.amount with
    | some a => some a
    | none =>
      let values := [so.fromKey, so.toKey].filterMap id
      if values = [] then none
      else some (values.sum / (values.length : ℚ))

/-- extract_vacancy_fields (source lines 351-399): normalize the salary
object, run the shift-pay extractor on the concatenated text fields, set
the per-shift flag from the estimate, and copy the remaining fields.
The responsibility text falls back to the description when the snippet
field is missing or empty; the structured average is never overwritten
by the shift estimate. -/
def extract_vacancy_fields (v : RawVacancy) : VacancyRec :=
  let employer := v.employer.getD ⟨none, none, none⟩
  let exp := v.experience.getD ⟨none⟩
  let snippet := v.snippet.getD ⟨none, none⟩
  let description_text := v.description_text.getD ""
  let area := v.area.getD ⟨none⟩
  let salary_avg_base := normalize_salary v.salary
  let title := v.name.getD ""
  let responsibility_text :=
    let r0 := (snippet.responsibility.getD "")
    if r0 = "" then description_text else r0
  let requirement_text := snippet.requirement
  let salary_estimated_monthly :=
    estimate_monthly_salary_from_text title responsibility_text requirement_text
      description_text
  let salary_per_shift := salary_estimated_monthly.isSome
  let schedule_name := match v.schedule with | some so => so.name | none => none
  { id := v.id
    title := title
    area := area.name
    published_at := v.published_at
    alternate_url := v.alternate_url
    salary := v.salary
    salary_avg := salary_avg_base
    salary_estimated_monthly := salary_estimated_monthly
    salary_per_shift := salary_per_shift
    experience := exp.name
    responsibility := responsibility_text
    requirement := requirement_text
    employer_id := employer.id
    employer_name := employer.name
    employer_trusted := employer.trusted
    schedule := schedule_name
    employer_mark := none }

/-!
Employer scoring, compute_employer_marks (source lines 797-847).  The
Python loop fills four dictionaries keyed by employer id; the model
represents each dictionary as an association list in insertion order,
updated exactly as the loop does.
-/

/-- A valid employer key: present and non-empty, the complement of the
falsy test that makes the loop skip a record. -/
def validEid : Option String → Option String
  | some s => if s = "" then none else some s
  | none => none

/-- Dictionary lookup. -/
def dictGet (d : List (String × α)) (k : String) : Option α :=
  (d.find? (fun p => p.1 = k)).map (fun p => p.2)

/-- Dictionary upsert: replace in place, or append a new key at the
end, preserving insertion order as CPython dictionaries do. -/
def dictSet (d : List (String × α)) (k : String) (v : α) : List (String × α) :=
  if (d.find? (fun p => p.1 = k)).isSome then
    d.map (fun p => if p.1 = k then (p.1, v) else p)
  else d ++ [(k, v)]

/-- One loop step for the per-employer totals. -/
def totalStep (d : List (String × Nat)) (v : VacancyRec) : List (String × Nat) :=
  match validEid v.employer_id with
  | some eid => dictSet d eid ((dictGet d eid).getD 0 + 1)
  | none => d

/-- employer_to_total after the aggregation loop. -/
def employer_to_total (items : List VacancyRec) : List (String × Nat) :=
  items.foldl totalStep []

/-- One loop step for the per-employer trusted flag. -/
def trustedStep (d : List (String × Bool)) (v : VacancyRec) : List (String × Bool) :=
  match validEid v.employer_id with
  | some eid => dictSet d eid (v.employer_trusted.getD false || (dictGet d eid).getD false)
  | none => d

/-- employer_to_trusted after the aggregation loop. -/
def employer_to_trusted (items : List VacancyRec) : List (String × Bool) :=
  items.foldl trustedStep []

/-- One loop step for the per-employer disclosed-salary count. -/
def presentStep (d : List (String × Nat)) (v : VacancyRec) : List (String × Nat) :=
  match validEid v.employer_id with
  | some eid =>
    match v.salary_avg with
    | some _ => dictSet d eid ((dictGet d eid).getD 0 + 1)
    | none => d
  | none => d

/-- employer_to_salary_present after the aggregation loop. -/
def employer_to_salary_present (items : List VacancyRec) : List (String × Nat) :=
  items.foldl presentStep []

/-- One loop step for the per-employer disclosed-salary list. -/
def salariesStep (d : List (String × List ℚ)) (v : VacancyRec) :
    List (String × List ℚ) :=
  match validEid v.employer_id with
  | some eid =>
    match v.salary_avg with
    | some a => dictSet d eid ((dictGet d eid).getD [] ++ [a])
    | none => d
  | none => d

/-- employer_to_salaries after the aggregation loop. -/
def employer_to_salaries (items : List VacancyRec) : List (String × List ℚ) :=
  items.foldl salariesStep []

/-- all_salaries: every disclosed average of a record with a valid
employer id, in input order. -/
def all_salaries (items : List VacancyRec) : List ℚ :=
  items.filterMap (fun v =>
    match validEid v.employer_id with
    | some _ => v.salary_avg
    | none => none)

/-- Python min over a list, with the given default on empty. -/
def pyMin (l : List ℚ) (dflt : ℚ) : ℚ :=
  match l with
  | [] => dflt
  | x :: xs => xs.foldl min x

/-- Python max over a list, with the given default on empty. -/
def pyMax (l : List ℚ) (dflt : ℚ) : ℚ :=
  match l with
  | [] => dflt
  | x :: xs => xs.foldl max x

/-- Python max over the total counts, one when the dictionary is empty
(source line 828). -/
def maxCount (items : List VacancyRec) : Nat :=
  match (employer_to_total items).map (fun p => p.2) with
  | [] => 1
  | x :: xs => xs.foldl max x

/-- The trusted-flag component of the mark (source line 832): one when
any vacancy of the employer carries the flag, else zero. -/
def trustedScore (items : List VacancyRec) (eid : String) : ℚ :=
  if (dictGet (employer_to_trusted items) eid).getD false then 1 else 0

/-- The salary-disclosure-rate component (source lines 833-834). -/
def salaryRate (items : List VacancyRec) (eid : String) (total : Nat) : ℚ :=
  if 0 < total then
    (((dictGet (employer_to_salary_present items) eid).getD 0 : ℚ) / (total : ℚ))
  else 0

/-- The normalized-average-salary component (source lines 824-826 and
835-837): the employer mean over the global disclosed range, zero
range giving denominator one. -/
def avgSalaryNorm (items : List VacancyRec) (eid : String) : ℚ :=
  let salaryMin := pyMin (all_salaries items) 0
  let salaryMax := pyMax (all_salaries items) 1
  let denom := if salaryMin < salaryMax then salaryMax - salaryMin else 1
  let salaries := (dictGet (employer_to_salaries items) eid).getD []
  let avgSalary := if salaries = [] then salaryMin else salaries.sum / (salaries.length : ℚ)
  (avgSalary - salaryMin) / denom

/-- The normalized-count component (source line 838). -/
def countNorm (items : List VacancyRec) (total : Nat) : ℚ :=
  if 0 < maxCount items then ((total : ℚ) / (maxCount items : ℚ)) else 0

/-- The mark of one employer given its total count (source lines
832-844): the weighted blend of the trusted score, the disclosure rate,
the normalized average salary and the normalized count, mapped to the
one-to-five band and clamped. -/
def markFor (items : List VacancyRec) (eid : String) (total : Nat) : ℚ :=
  max 1 (min 5 (1 + (0.4 * trustedScore items eid + 0.3 * salaryRate items eid total
    + 0.2 * avgSalaryNorm items eid + 0.1 * countNorm items total) * 4))

/-- compute_employer_marks (source lines 797-847): one mark per key of
the totals dictionary, in its insertion order. -/
def compute_employer_marks (items : List VacancyRec) : List (String × ℚ) :=
  (employer_to_total items).map (fun p => (p.1, markFor items p.1 p.2))

/-- The rotational schedule label whose records are excluded. -/
def vakhtaLabel : String := "Вахтовый метод"

/-- The per-record loop of parse_vacancies (source lines 781-786):
extract each record and keep it unless its schedule is the rotational
label. -/
def parseLoop : List RawVacancy → List VacancyRec
  | [] => []
  | v :: rest =>
    let p := extract_vacancy_fields v
    if p.schedule = some vakhtaLabel then parseLoop rest
    else p :: parseLoop rest

/-- parse_vacancies (source lines 775-794): the filtered extraction
pass, with employer marks attached to each surviving record when
requested. -/
def parse_vacancies (items : List RawVacancy) (with_employer_mark : Bool) :
    List VacancyRec :=
  let parsed := parseLoop items
  if with_employer_mark then
    let computed := compute_employer_marks parsed
    parsed.map (fun p =>
      { p with employer_mark :=
          match p.employer_id with
          | some e => dictGet computed e
          | none => none })
  else parsed

/-!
Aggregate salary statistics, salary_stats (analytics.py lines 11-77).
Arithmetic is modelled exactly over the rationals; the two-decimal
rounding uses the ties-to-even rule of the Python round builtin.
-/

/-- The minimum-validity floor (analytics.py line 25). -/
def MIN_VALID_MONTHLY : ℚ := 13000

/-- The candidate value of one record (analytics.py lines 15-23): the
shift estimate for per-shift records, else the stored average, else the
re-normalized raw salary object. -/
def candidateOf (v : VacancyRec) : Option ℚ :=
  if v.salary_per_shift then v.salary_estimated_monthly
  else
    match v.salary_avg with
    | some a => some a
    | none => normalize_salary v.salary

/-- The surviving values (analytics.py line 26): candidates that are
present and at least the floor, in record order. -/
def survivors (vs : List VacancyRec) : List ℚ :=
  (vs.map candidateOf).filterMap (fun o =>
    match o with
    | some s => if MIN_VALID_MONTHLY ≤ s then some s else none
    | none => none)

/-- Insert into a sorted list, keeping it sorted ascending. -/
def insertSorted (x : ℚ) : List ℚ → List ℚ
  | [] => [x]
  | y :: ys => if x ≤ y then x :: y :: ys else y :: insertSorted x ys

/-- list.sort ascending. -/
def pySort (l : List ℚ) : List ℚ :=
  l.foldr insertSorted []

/-- Linear-interpolation percentile over a sorted array (analytics.py
lines 35-44).  On the empty array the source produces a float nan that
is never consumed, since the caller guards on length at least four; the
model returns zero there. -/
def percentile (arr : List ℚ) (p : ℚ) : ℚ :=
  if arr = [] then 0
  else
    let idx := ((arr.length : ℚ) - 1) * p
    let lo := ⌊idx⌋
    let hi := ⌈idx⌉
    if lo = hi then arr.getD lo.toNat 0
    else
      let frac := idx - (lo : ℚ)
      arr.getD lo.toNat 0 * (1 - frac) + arr.getD hi.toNat 0 * frac

/-- Median of a sorted list by the even/odd midpoint rule (analytics.py
lines 61 and 70). -/
def medianSorted (l : List ℚ) : ℚ :=
  let n := l.length
  if n % 2 = 1 then l.getD (n / 2) 0
  else (l.getD (n / 2 - 1) 0 + l.getD (n / 2) 0) / 2

/-- The outlier-removal stage of salary_stats (analytics.py lines
46-63), applied to the sorted surviving list.  With at least four values
and a positive interquartile range, values above the Tukey high fence are
dropped, except that when fewer than three would remain the largest value
alone is dropped; with a non-positive range nothing is dropped.  With
fewer than four values the largest is dropped when it exceeds twice the
median and at least two values exist. -/
def fenceFilter (salaries : List ℚ) : List ℚ :=
  let n := salaries.length
  if 4 ≤ n then
    let q1 := percentile salaries (1/4)
    let q3 := percentile salaries (3/4)
    let iqr := q3 - q1
    if 0 < iqr then
      let highCut := q3 + (3/2) * iqr
      let filtered := salaries.filter (fun s => decide (s ≤ highCut))
      if filtered.length < 3 ∧ 3 ≤ n then
        (if 1 < n then salaries.dropLast else salaries)
      else filtered
    else salaries
  else
    let med := medianSorted salaries
    if 2 ≤ n ∧ 2 * med < salaries.getLastD 0 then salaries.dropLast else salaries

/-- The Python round builtin on rationals: nearest integer, ties to
even. -/
def pyRound (q : ℚ) : ℤ :=
  let f := ⌊q⌋
  let r := q - (f : ℚ)
  if r < 1/2 then f
  else if 1/2 < r then f + 1
  else if f % 2 = 0 then f else f + 1

/-- round(x, 2). -/
def round2 (q : ℚ) : ℚ :=
  (pyRound (q * 100) : ℚ) / 100

/-- The summary shape returned by salary_stats. -/
structure StatsResult where
  count : Nat
  avg : Option ℚ
  median : Option ℚ
  min : Option ℚ
  max : Option ℚ
deriving DecidableEq

/-- Count, average, median, minimum and maximum of the final list, each
rounded to two decimals (analytics.py lines 68-77). -/
def statsOfSorted (filtered : List ℚ) : StatsResult :=
  let n := filtered.length
  let avg := filtered.sum / (n : ℚ)
  { count := n
    avg := some (round2 avg)
    median := some (round2 (medianSorted filtered))
    min := some (round2 (filtered.headD 0))
    max := some (round2 (filtered.getLastD 0)) }

/-- salary_stats (analytics.py lines 11-77): select one candidate per
record, drop missing values and values under the floor, sort, run the
outlier stage, and summarise; the all-null summary when nothing
survives. -/
def salary_stats (vs : List VacancyRec) : StatsResult :=
  let raw := vs.map candidateOf
  let salaries := raw.filterMap (fun o =>
    match o with
    | some s => if MIN_VALID_MONTHLY ≤ s then some s else none
    | none => none)
  if salaries = [] then ⟨0, none, none, none, none⟩
  else
    let sorted := pySort salaries
    let filtered := fenceFilter sorted
    let filtered2 := if filtered = [] then sorted else filtered
    statsOfSorted filtered2

/-- The interquartile range as salary_stats computes it (analytics.py
lines 49-51). -/
def iqrOf (s : List ℚ) : ℚ :=
  percentile s (3/4) - percentile s (1/4)

/-- The Tukey high fence of salary_stats (analytics.py line 53). -/
def highFence (s : List ℚ) : ℚ :=
  percentile s (3/4) + (3/2) * iqrOf s

/-- A minimal normalized record carrying only a structured monthly
average, used to exercise the statistics claims. -/
def plainRec (q : Option ℚ) : VacancyRec :=
  { id := none, title := "", area := none, published_at := none,
    alternate_url := none, salary := none, salary_avg := q,
    salary_estimated_monthly := none, salary_per_shift := false,
    experience := none, responsibility := "", requirement := none,
    employer_id := none, employer_name := none, employer_trusted := none,
    schedule := none, employer_mark := none }

/-- A record of a trusted employer with one disclosed salary, used to
exercise the employer-scoring claims. -/
def employerRec : VacancyRec :=
  { plainRec (some 50000) with employer_id := some "e1", employer_trusted := some true }

/-- A record whose employer id is the empty string, skipped by the
employer scoring. -/
def noEidRec : VacancyRec :=
  { plainRec (some 50000) with employer_id := some "" }

/-- The five-salary sample of the outlier-fencing claim. -/
def fiveSampleRecs : List VacancyRec :=
  [plainRec (some 40000), plainRec (some 45000), plainRec (some 50000),
   plainRec (some 55000), plainRec (some 500000)]

/-- A five-salary sample whose interquartile range is zero. -/
def fiveFlatRecs : List VacancyRec :=
  [plainRec (some 13000), plainRec (some 13000), plainRec (some 13000),
   plainRec (some 13000), plainRec (some 20000)]

/-!
Claim theorems for the shift-pay extractor.
-/

/-- C1: the claim says the spellings 4.5 тыс/см. and 4500/см. both yield
the per-shift rate 4500.  On the code as written neither text produces
any per-shift candidate, so the extractor returns null for both, and it
also returns null on the input of the repository test
test_thousand_marker_short_form, which asserts an estimate of 67500.
The corrupted numeric group of the simple patterns demands a literal
2-comma inside the number, and no pattern allows the thousands word
between the number and the slash-shift marker. -/
theorem thousands_spelling_failing_eval :
    estimate_monthly_salary_from_text "" "" none "4.5 тыс/см." = none ∧
    estimate_monthly_salary_from_text "" "" none "4500/см." = none ∧
    estimate_monthly_salary_from_text "" "" none "ставка 4,5 тыс/см." = none := by
  exact ⟨by decide, by decide, by decide⟩

/-- C2: the claim says a string of the grouped-integer shape, such as
3.500, parses as the grouped integer 3500.  In the code every string of
the grouped shape also fulfils the decimal shape, so the grouped branch
is unreachable and 3.500 parses as the decimal seven halves; the claimed
behaviours for 4,5 and for 3 500 do hold. -/
theorem ruble_amount_shape_eval :
    parse_ruble_amount "3.500" none = some (7/2) ∧
    parse_ruble_amount "4,5" none = some (9/2) ∧
    parse_ruble_amount "3 500" none = some 3500 := by
  refine ⟨?_, ?_, by decide⟩
  · have h : parse_ruble_amount "3.500" none = some (parseDecimal ("3.500".toList)) := rfl
    have e1 : digitsToNat (("3.500".toList).takeWhile pyDigit) = 3 := by decide
    have e2 : digitsToNat ((("3.500".toList).dropWhile pyDigit).drop 1) = 500 := by decide
    have e3 : ((("3.500".toList).dropWhile pyDigit).drop 1).length = 3 := by decide
    rw [h]
    simp only [parseDecimal, e1, e2, e3]
    norm_num [pow10]
  · have h : parse_ruble_amount "4,5" none = some (parseDecimal ("4.5".toList)) := rfl
    have e1 : digitsToNat (("4.5".toList).takeWhile pyDigit) = 4 := by decide
    have e2 : digitsToNat ((("4.5".toList).dropWhile pyDigit).drop 1) = 5 := by decide
    have e3 : ((("4.5".toList).dropWhile pyDigit).drop 1).length = 1 := by decide
    rw [h]
    simp only [parseDecimal, e1, e2, e3]
    norm_num [pow10]

/-- C4: whenever the range pass yields a candidate the chosen candidate
set is the range set and the estimate is its mean times the shift count,
every simple candidate being discarded; when the range pass yields
nothing the simple candidates are used, and their absence gives null. -/
theorem range_candidates_priority (t r : String) (q : Option String) (d : String) :
    (rangeCandidates (mkBlob t r q d) ≠ [] →
      chosenCandidates (mkBlob t r q d) = rangeCandidates (mkBlob t r q d) ∧
      ∀ ms : ℚ, monthlyShiftsE (mkBlob t r q d) = .ok ms →
        estimate_monthly_salary_from_text t r q d =
          some ((rangeCandidates (mkBlob t r q d)).sum /
                ((rangeCandidates (mkBlob t r q d)).length : ℚ) * ms)) ∧
    (rangeCandidates (mkBlob t r q d) = [] →
      chosenCandidates (mkBlob t r q d) = simpleCandidates (mkBlob t r q d) ∧
      (simpleCandidates (mkBlob t r q d) = [] →
        estimate_monthly_salary_from_text t r q d = none) ∧
      (simpleCandidates (mkBlob t r q d) ≠ [] →
        ∀ ms : ℚ, monthlyShiftsE (mkBlob t r q d) = .ok ms →
          estimate_monthly_salary_from_text t r q d =
            some ((simpleCandidates (mkBlob t r q d)).sum /
                  ((simpleCandidates (mkBlob t r q d)).length : ℚ) * ms))) := by
  constructor
  · intro hne
    have hch : chosenCandidates (mkBlob t r q d) = rangeCandidates (mkBlob t r q d) := by
      unfold chosenCandidates
      rw [if_neg hne]
    refine ⟨hch, ?_⟩
    intro ms hms
    unfold estimate_monthly_salary_from_text estimateBody
    simp only [hch, hms, if_neg hne]
  · intro hemp
    have hch : chosenCandidates (mkBlob t r q d) = simpleCandidates (mkBlob t r q d) := by
      unfold chosenCandidates
      rw [if_pos hemp]
    refine ⟨hch, ?_, ?_⟩
    · intro hs
      unfold estimate_monthly_salary_from_text estimateBody
      simp [hch, hs]
    · intro hs ms hms
      unfold estimate_monthly_salary_from_text estimateBody
      simp only [hch, hms, if_neg hs]

/-- C4 witness: a text with a clean range match yields the mean of its
range candidates times the fallback count of fifteen. -/
theorem range_candidates_priority_witness :
    estimate_monthly_salary_from_text "" "" none "за смену 4000-5000" = some 67500 := by
  have hne : rangeCandidates (mkBlob "" "" none "за смену 4000-5000") ≠ [] := by decide
  have hms : monthlyShiftsE (mkBlob "" "" none "за смену 4000-5000") = .ok (max 6 (min 26 15)) := rfl
  have h := ((range_candidates_priority "" "" none "за смену 4000-5000").1 hne).2
      (max 6 (min 26 15)) hms
  have hv : rangeCandidates (mkBlob "" "" none "за смену 4000-5000") =
      [((4000 : ℚ) + 5000) / 2, ((4000 : ℚ) + 5000) / 2] := rfl
  rw [h, hv]
  norm_num [min_def, max_def]

/-- C6: every shift count the extractor produces lies between six and
twenty-six, and when none of the four inference sources yields a value
the count is the fallback constant fifteen. -/
theorem monthly_shift_count_clamp (blob : List Char) :
    (∀ ms : ℚ, monthlyShiftsE blob = .ok ms → 6 ≤ ms ∧ ms ≤ 26) ∧
    (monthFromExplicitE blob = .ok none → weekFromExplicitE blob = .ok none →
      schedRatio blob = none → sutkiIdiom blob = none →
      monthlyShiftsE blob = .ok 15) := by
  constructor
  · intro ms hms
    unfold monthlyShiftsE at hms
    split at hms
    · exact Except.noConfusion hms
    · split at hms
      · exact Except.noConfusion hms
      · have hx := Except.ok.inj hms
        rw [← hx]
        exact ⟨le_max_left _ _, max_le (by norm_num) (min_le_left _ _)⟩
  · intro h1 h2 h3 h4
    unfold monthlyShiftsE
    rw [h1]
    simp only [h2, h3, h4, Option.getD]
    have : max (6 : ℚ) (min 26 15) = 15 := by norm_num [min_def, max_def]
    rw [this]

/-- C6 witness: the empty posting gives the fallback count of fifteen,
inside the clamp band. -/
theorem monthly_shift_count_clamp_witness :
    monthlyShiftsE (mkBlob "" "" none "") = .ok 15 ∧ (6 : ℚ) ≤ 15 ∧ (15 : ℚ) ≤ 26 := by
  have h := (monthly_shift_count_clamp (mkBlob "" "" none "")).2 rfl rfl rfl rfl
  exact ⟨h, ((monthly_shift_count_clamp (mkBlob "" "" none "")).1 15 h).1,
         ((monthly_shift_count_clamp (mkBlob "" "" none "")).1 15 h).2⟩

/-- C9: the extractor is a total function into the optional rationals,
so the caller sees either a value or null; and whenever the body raises,
as it does when only the reversed month or week form matches, the
enclosing handler converts the exception to null. -/
theorem estimate_total_and_catches (t r : String) (q : Option String) (d : String) :
    (estimate_monthly_salary_from_text t r q d = none ∨
      ∃ v : ℚ, estimate_monthly_salary_from_text t r q d = some v) ∧
    (∀ e : String, estimateBody t r q d = .error e →
      estimate_monthly_salary_from_text t r q d = none) := by
  constructor
  · cases h : estimate_monthly_salary_from_text t r q d with
    | none => exact Or.inl rfl
    | some v => exact Or.inr ⟨v, rfl⟩
  · intro e he
    unfold estimate_monthly_salary_from_text
    rw [he]

/-- C9 witness: a posting whose only shift-count statement is the
reversed month form makes the body raise the missing-group error, and
the extractor returns null. -/
theorem estimate_total_and_catches_witness :
    estimate_monthly_salary_from_text "" "" none "422, за см в мес 2 смен" = none := by
  exact (estimate_total_and_catches "" "" none "422, за см в мес 2 смен").2
    "no such group" rfl

/-!
Claim theorems for the field extractor and the statistics engine.
-/

/-- The extraction loop keeps exactly the extracted records whose
schedule differs from the rotational label. -/
theorem parseLoop_eq_filter (items : List RawVacancy) :
    parseLoop items =
      (items.map extract_vacancy_fields).filter
        (fun p => decide (p.schedule ≠ some vakhtaLabel)) := by
  induction items with
  | nil => rfl
  | cons v rest ih =>
    unfold parseLoop
    rw [List.map_cons, List.filter_cons]
    by_cases h : (extract_vacancy_fields v).schedule = some vakhtaLabel
    · rw [if_pos h, ih]
      simp [h]
    · rw [if_neg h, ih]
      simp [h]

/-- C7: parse_vacancies drops exactly the records whose schedule name is
the rotational label: its output collection is the filtered extraction
map, with employer marks attached over that same filtered collection when
requested, so every non-rotational record appears and no rotational
record does. -/
theorem parse_vacancies_excludes_rotational (items : List RawVacancy) (wm : Bool) :
    parse_vacancies items wm =
      (let base := (items.map extract_vacancy_fields).filter
          (fun p => decide (p.schedule ≠ some vakhtaLabel))
       if wm then
         base.map (fun p =>
           { p with employer_mark :=
               match p.employer_id with
               | some e => dictGet (compute_employer_marks base) e
               | none => none })
       else base) := by
  unfold parse_vacancies
  rw [parseLoop_eq_filter]

/-- C5: a value survives into the statistics base exactly when some
record candidate equals it and it reaches the floor of thirteen
thousand, and the whole summary is computed from the surviving list
alone. -/
theorem salary_stats_floor_excludes (vs : List VacancyRec) :
    (∀ x : ℚ, x ∈ survivors vs ↔
      (some x ∈ vs.map candidateOf ∧ MIN_VALID_MONTHLY ≤ x)) ∧
    salary_stats vs =
      (if survivors vs = [] then ⟨0, none, none, none, none⟩
       else
         statsOfSorted
           (if fenceFilter (pySort (survivors vs)) = [] then pySort (survivors vs)
            else fenceFilter (pySort (survivors vs)))) := by
  constructor
  · intro x
    unfold survivors
    rw [List.mem_filterMap]
    constructor
    · rintro ⟨o, ho, hfo⟩
      cases o with
      | none => exact absurd hfo (by simp)
      | some s =>
        dsimp only at hfo
        by_cases h : MIN_VALID_MONTHLY ≤ s
        · rw [if_pos h] at hfo
          cases Option.some.inj hfo
          exact ⟨ho, h⟩
        · rw [if_neg h] at hfo
          exact absurd hfo (by simp)
    · rintro ⟨ho, hx⟩
      exact ⟨some x, ho, by dsimp only; rw [if_pos hx]⟩
  · rfl

/-- C5 witness: a forty-thousand average survives while a five-thousand
average is excluded by the floor. -/
theorem salary_stats_floor_excludes_witness :
    (40000 : ℚ) ∈ survivors [plainRec (some 40000), plainRec (some 5000)] ∧
    ¬ (5000 : ℚ) ∈ survivors [plainRec (some 40000), plainRec (some 5000)] := by
  constructor
  · exact ((salary_stats_floor_excludes
      [plainRec (some 40000), plainRec (some 5000)]).1 40000).mpr ⟨by decide, by decide⟩
  · intro hmem
    have h := ((salary_stats_floor_excludes
      [plainRec (some 40000), plainRec (some 5000)]).1 5000).mp hmem
    exact absurd h.2 (by decide)

/-- C8: every mark in the employer map is the clamped linear image of
the weighted component blend for some total count of that employer, and
therefore lies between one and five inclusive. -/
theorem employer_marks_formula_bounds (items : List VacancyRec) (eid : String)
    (mark : ℚ) (hm : (eid, mark) ∈ compute_employer_marks items) :
    (∃ total : Nat, (eid, total) ∈ employer_to_total items ∧
      mark = max 1 (min 5 (1 + (0.4 * trustedScore items eid
        + 0.3 * salaryRate items eid total + 0.2 * avgSalaryNorm items eid
        + 0.1 * countNorm items total) * 4))) ∧
    1 ≤ mark ∧ mark ≤ 5 := by
  unfold compute_employer_marks at hm
  obtain ⟨p, hp, he⟩ := List.mem_map.mp hm
  have h1 : p.1 = eid := congrArg Prod.fst he
  have h2 : markFor items p.1 p.2 = mark := congrArg Prod.snd he
  constructor
  · refine ⟨p.2, ?_, ?_⟩
    · rw [← h1]
      exact hp
    · rw [← h2, h1]
      rfl
  · rw [← h2]
    unfold markFor
    exact ⟨le_max_left _ _, max_le (by norm_num) (min_le_left _ _)⟩

/-- C8 witness: the single trusted employer of one disclosed-salary
record receives a mark inside the one-to-five band. -/
theorem employer_marks_formula_bounds_witness :
    ∃ m : ℚ, ("e1", m) ∈ compute_employer_marks [employerRec] ∧ 1 ≤ m ∧ m ≤ 5 := by
  have hmem : ("e1", markFor [employerRec] "e1" 1) ∈ compute_employer_marks [employerRec] := by
    have h : compute_employer_marks [employerRec] =
        [("e1", markFor [employerRec] "e1" 1)] := rfl
    rw [h]
    exact List.mem_singleton_self _
  have h := employer_marks_formula_bounds [employerRec] "e1" _ hmem
  exact ⟨_, hmem, h.2⟩

/-- The keys of an upsert are the old keys together with the upserted
key. -/
theorem mem_keys_dictSet {α : Type} (d : List (String × α)) (k e : String) (val : α) :
    (∃ t, (k, t) ∈ dictSet d e val) ↔ (∃ t, (k, t) ∈ d) ∨ k = e := by
  unfold dictSet
  by_cases h : (d.find? (fun p => p.1 = e)).isSome
  · rw [if_pos h]
    constructor
    · rintro ⟨t, ht⟩
      obtain ⟨p, hp, hpe⟩ := List.mem_map.mp ht
      by_cases hpk : p.1 = e
      · rw [if_pos hpk] at hpe
        have hk : p.1 = k := congrArg Prod.fst hpe
        right
        rw [← hk]
        exact hpk
      · rw [if_neg hpk] at hpe
        left
        exact ⟨t, hpe ▸ hp⟩
    · rintro (⟨t, ht⟩ | rfl)
      · by_cases hk : k = e
        · refine ⟨val, List.mem_map.mpr ⟨(k, t), ht, ?_⟩⟩
          simp [hk]
        · refine ⟨t, List.mem_map.mpr ⟨(k, t), ht, ?_⟩⟩
          simp [hk]
      · obtain ⟨p, hfind⟩ := Option.isSome_iff_exists.mp h
        have hp := List.mem_of_find?_eq_some hfind
        have hpe : p.1 = k := by simpa using List.find?_some hfind
        refine ⟨val, List.mem_map.mpr ⟨p, hp, ?_⟩⟩
        rw [if_pos hpe, hpe]
  · rw [if_neg h]
    constructor
    · rintro ⟨t, ht⟩
      rcases List.mem_append.mp ht with h1 | h2
      · exact Or.inl ⟨t, h1⟩
      · right
        have h3 := List.mem_singleton.mp h2
        exact congrArg Prod.fst h3
    · rintro (⟨t, ht⟩ | rfl)
      · exact ⟨t, List.mem_append.mpr (Or.inl ht)⟩
      · exact ⟨val, List.mem_append.mpr (Or.inr (List.mem_singleton.mpr rfl))⟩

/-- A key appears in the folded totals dictionary exactly when it was
already present or some processed record carries it validly. -/
theorem mem_keys_totals_fold (items : List VacancyRec) (d : List (String × Nat))
    (eid : String) :
    (∃ t, (eid, t) ∈ items.foldl totalStep d) ↔
      (∃ t, (eid, t) ∈ d) ∨ ∃ v, v ∈ items ∧ validEid v.employer_id = some eid := by
  induction items generalizing d with
  | nil => simp
  | cons v rest ih =>
    rw [List.foldl_cons, ih]
    have hstep : (∃ t, (eid, t) ∈ totalStep d v) ↔
        (∃ t, (eid, t) ∈ d) ∨ validEid v.employer_id = some eid := by
      unfold totalStep
      cases hv : validEid v.employer_id with
      | none => simp
      | some e =>
        rw [mem_keys_dictSet]
        constructor
        · rintro (h | rfl)
          · exact Or.inl h
          · exact Or.inr rfl
        · rintro (h | he)
          · exact Or.inl h
          · exact Or.inr (Option.some.inj he).symm
    rw [hstep]
    constructor
    · rintro ((hd | hv2) | ⟨w, hw, hwe⟩)
      · exact Or.inl hd
      · exact Or.inr ⟨v, List.mem_cons_self v rest, hv2⟩
      · exact Or.inr ⟨w, List.mem_cons_of_mem v hw, hwe⟩
    · rintro (hd | ⟨w, hw, hwe⟩)
      · exact Or.inl (Or.inl hd)
      · rcases List.mem_cons.mp hw with rfl | hw2
        · exact Or.inl (Or.inr hwe)
        · exact Or.inr ⟨w, hw2, hwe⟩

/-- The mark map has exactly the keys of the totals dictionary. -/
theorem mem_keys_marks (items : List VacancyRec) (eid : String) :
    (∃ m, (eid, m) ∈ compute_employer_marks items) ↔
      ∃ t, (eid, t) ∈ employer_to_total items := by
  unfold compute_employer_marks
  constructor
  · rintro ⟨m, hm⟩
    obtain ⟨p, hp, he⟩ := List.mem_map.mp hm
    have h1 : p.1 = eid := congrArg Prod.fst he
    refine ⟨p.2, ?_⟩
    rw [← h1]
    exact hp
  · rintro ⟨t, ht⟩
    exact ⟨markFor items eid t, List.mem_map.mpr ⟨(eid, t), ht, rfl⟩⟩

/-- The valid-key view of an employer id. -/
theorem validEid_eq_some_iff (o : Option String) (eid : String) :
    validEid o = some eid ↔ o = some eid ∧ eid ≠ "" := by
  cases o with
  | none => simp [validEid]
  | some s =>
    simp only [validEid]
    by_cases h : s = ""
    · rw [if_pos h]
      subst h
      constructor
      · intro he
        exact absurd he (by simp)
      · rintro ⟨he, hne⟩
        cases Option.some.inj he
        exact absurd rfl hne
    · rw [if_neg h]
      constructor
      · intro he
        refine ⟨he, ?_⟩
        cases Option.some.inj he
        exact h
      · rintro ⟨he, _⟩
        exact he

/-- A record with a missing or empty employer id leaves the whole mark
computation untouched. -/
theorem marks_skip_invalid (v : VacancyRec) (items : List VacancyRec)
    (hv : validEid v.employer_id = none) :
    compute_employer_marks (v :: items) = compute_employer_marks items := by
  have h0 : totalStep ([] : List (String × Nat)) v = [] := by
    unfold totalStep
    rw [hv]
  have ht : employer_to_total (v :: items) = employer_to_total items := by
    unfold employer_to_total
    rw [List.foldl_cons, h0]
  have h1 : trustedStep ([] : List (String × Bool)) v = [] := by
    unfold trustedStep
    rw [hv]
  have htr : employer_to_trusted (v :: items) = employer_to_trusted items := by
    unfold employer_to_trusted
    rw [List.foldl_cons, h1]
  have h2 : presentStep ([] : List (String × Nat)) v = [] := by
    unfold presentStep
    rw [hv]
  have hpr : employer_to_salary_present (v :: items) = employer_to_salary_present items := by
    unfold employer_to_salary_present
    rw [List.foldl_cons, h2]
  have h3 : salariesStep ([] : List (String × List ℚ)) v = [] := by
    unfold salariesStep
    rw [hv]
  have hsl : employer_to_salaries (v :: items) = employer_to_salaries items := by
    unfold employer_to_salaries
    rw [List.foldl_cons, h3]
  have hall : all_salaries (v :: items) = all_salaries items := by
    unfold all_salaries
    rw [List.filterMap_cons_none]
    rw [hv]
  unfold compute_employer_marks markFor trustedScore salaryRate avgSalaryNorm
    countNorm maxCount
  simp only [ht, htr, hpr, hsl, hall]

/-- C10: the keys of the employer-mark map are exactly the non-empty
employer ids occurring among the records, and a record whose employer id
is missing or empty contributes to nothing: prepending it leaves the
whole mark map unchanged. -/
theorem employer_marks_keys_exact (items : List VacancyRec) :
    (∀ eid : String,
      (∃ m, (eid, m) ∈ compute_employer_marks items) ↔
        ∃ v, v ∈ items ∧ v.employer_id = some eid ∧ eid ≠ "") ∧
    (∀ v : VacancyRec, validEid v.employer_id = none →
      compute_employer_marks (v :: items) = compute_employer_marks items) := by
  constructor
  · intro eid
    rw [mem_keys_marks]
    have h := mem_keys_totals_fold items [] eid
    unfold employer_to_total
    rw [h]
    simp only [List.not_mem_nil, false_and, exists_false, false_or]
    constructor
    · rintro ⟨v, hv, hve⟩
      obtain ⟨h1, h2⟩ := (validEid_eq_some_iff v.employer_id eid).mp hve
      exact ⟨v, hv, h1, h2⟩
    · rintro ⟨v, hv, h1, h2⟩
      exact ⟨v, hv, (validEid_eq_some_iff v.employer_id eid).mpr ⟨h1, h2⟩⟩
  · intro v hv
    exact marks_skip_invalid v items hv

/-- C10 witness: an empty-id record changes nothing, and the one valid
employer id is a key of the map. -/
theorem employer_marks_keys_exact_witness :
    compute_employer_marks [noEidRec, employerRec] = compute_employer_marks [employerRec] ∧
    ∃ m, ("e1", m) ∈ compute_employer_marks [employerRec] := by
  constructor
  · exact (employer_marks_keys_exact [employerRec]).2 noEidRec (by decide)
  · exact ((employer_marks_keys_exact [employerRec]).1 "e1").mpr
      ⟨employerRec, List.mem_singleton_self _, rfl, by decide⟩

/-- Linear-interpolation percentile at an integer index reads the array
directly. -/
theorem percentile_at_nat (arr : List ℚ) (p : ℚ) (k : Nat) (hne : ¬ arr = [])
    (hidx : ((arr.length : ℚ) - 1) * p = (k : ℚ)) :
    percentile arr p = arr.getD k 0 := by
  unfold percentile
  rw [if_neg hne]
  simp only [hidx, Int.floor_natCast, Int.ceil_natCast, eq_self_iff_true, if_true,
    Int.toNat_natCast]

/-- In a list sorted ascending every element is at most the last one. -/
theorem sorted_le_getLastD : ∀ (l : List ℚ), List.Sorted (· ≤ ·) l →
    ∀ x ∈ l, x ≤ l.getLastD 0
  | [], _, x, hx => absurd hx (List.not_mem_nil x)
  | [a], _, x, hx => by
    rcases List.mem_singleton.mp hx with rfl
    exact le_refl _
  | a :: b :: m, hs, x, hx => by
    have hcons := List.sorted_cons.mp hs
    have hrest := sorted_le_getLastD (b :: m) hcons.2
    have hlast : (a :: b :: m).getLastD 0 = (b :: m).getLastD 0 := by
      simp [List.getLastD_cons]
    rcases List.mem_cons.mp hx with rfl | hx2
    · have hab : x ≤ b := hcons.1 b (List.mem_cons_self b m)
      rw [hlast]
      exact le_trans hab (hrest b (List.mem_cons_self b m))
    · rw [hlast]
      exact hrest x hx2

/-- C3 (amended): on a sorted surviving list of at least four values
whose interquartile range is positive, the Tukey fence drops exactly the
values above the high cut, except that when fewer than three would remain
only the largest value is dropped; when the interquartile range is zero
or negative nothing is dropped, which is the amendment forced by the
code.  On fewer than four values the largest is dropped exactly when it
exceeds twice the median and at least two values exist.  On the sample
of five salaries from forty to five hundred thousand the summary maximum
is fifty-five thousand. -/
theorem salary_stats_fence_amended (s : List ℚ) (hs : List.Sorted (· ≤ ·) s) :
    (4 ≤ s.length →
      (0 < iqrOf s →
        ((3 ≤ (s.filter (fun x => decide (x ≤ highFence s))).length →
           ∀ x : ℚ, x ∈ fenceFilter s ↔ x ∈ s ∧ x ≤ highFence s) ∧
         ((s.filter (fun x => decide (x ≤ highFence s))).length < 3 →
           fenceFilter s = s.dropLast ∧ ∀ x ∈ s, x ≤ s.getLastD 0))) ∧
      (iqrOf s ≤ 0 → fenceFilter s = s)) ∧
    (s.length < 4 → 2 ≤ s.length →
      ((2 * medianSorted s < s.getLastD 0 →
         fenceFilter s = s.dropLast ∧ ∀ x ∈ s, x ≤ s.getLastD 0) ∧
       (s.getLastD 0 ≤ 2 * medianSorted s → fenceFilter s = s))) ∧
    salary_stats fiveSampleRecs = ⟨4, some 47500, some 47500, some 40000, some 55000⟩ := by
  have hiqrDef : iqrOf s = percentile s (3/4) - percentile s (1/4) := rfl
  refine ⟨?_, ?_, ?_⟩
  · intro h4
    constructor
    · intro hiqr
      have hiqr2 : 0 < percentile s (3/4) - percentile s (1/4) := hiqrDef ▸ hiqr
      constructor
      · intro h3 x
        have hff : fenceFilter s = s.filter (fun x => decide (x ≤ highFence s)) := by
          simp only [fenceFilter]
          rw [if_pos h4, if_pos hiqr2,
            if_neg (fun hc => absurd hc.1 (Nat.not_lt.mpr h3))]
          rfl
        rw [hff, List.mem_filter, decide_eq_true_eq]
      · intro hlt
        have hff : fenceFilter s = s.dropLast := by
          simp only [fenceFilter]
          rw [if_pos h4, if_pos hiqr2, if_pos ⟨hlt, by omega⟩, if_pos (by omega)]
        exact ⟨hff, sorted_le_getLastD s hs⟩
    · intro hle
      have hle2 : ¬ (0 < percentile s (3/4) - percentile s (1/4)) :=
        not_lt.mpr (hiqrDef ▸ hle)
      simp only [fenceFilter]
      rw [if_pos h4, if_neg hle2]
  · intro hlt h2
    constructor
    · intro hmed
      have hff : fenceFilter s = s.dropLast := by
        simp only [fenceFilter]
        rw [if_neg (Nat.not_le.mpr hlt), if_pos ⟨h2, hmed⟩]
      exact ⟨hff, sorted_le_getLastD s hs⟩
    · intro hmed
      simp only [fenceFilter]
      rw [if_neg (Nat.not_le.mpr hlt),
        if_neg (fun hc => absurd hc.2 (not_lt.mpr hmed))]
  · have hq1 : percentile [(40000 : ℚ), 45000, 50000, 55000, 500000] (1/4) = 45000 := by
      rw [percentile_at_nat _ _ 1 (by simp) (by norm_num)]
      rfl
    have hq3 : percentile [(40000 : ℚ), 45000, 50000, 55000, 500000] (3/4) = 55000 := by
      rw [percentile_at_nat _ _ 3 (by simp) (by norm_num)]
      rfl
    have hfence : fenceFilter [(40000 : ℚ), 45000, 50000, 55000, 500000] =
        [(40000 : ℚ), 45000, 50000, 55000] := by
      simp only [fenceFilter]
      rw [hq1, hq3]
      rw [show (55000:ℚ) + 3/2 * (55000 - 45000) = 70000 from by norm_num]
      rw [show List.filter (fun x => decide (x ≤ (70000:ℚ)))
            [(40000:ℚ), 45000, 50000, 55000, 500000] = [(40000:ℚ), 45000, 50000, 55000]
          from by decide]
      norm_num
    have hA : salary_stats fiveSampleRecs =
        (if survivors fiveSampleRecs = [] then ⟨0, none, none, none, none⟩
         else statsOfSorted
           (if fenceFilter (pySort (survivors fiveSampleRecs)) = []
            then pySort (survivors fiveSampleRecs)
            else fenceFilter (pySort (survivors fiveSampleRecs)))) := rfl
    rw [hA]
    rw [show survivors fiveSampleRecs = [(40000 : ℚ), 45000, 50000, 55000, 500000]
        from by decide]
    rw [show pySort [(40000 : ℚ), 45000, 50000, 55000, 500000] =
        [(40000 : ℚ), 45000, 50000, 55000, 500000] from by decide]
    rw [hfence]
    rw [if_neg (by simp), if_neg (by simp)]
    simp only [statsOfSorted, medianSorted]
    norm_num [round2, pyRound, List.sum_cons, List.sum_nil, List.getD, List.get?]

/-- C3 witness: on the five-salary sample the fence hypotheses hold and
the five-hundred-thousand outlier is dropped by the fence stage. -/
theorem salary_stats_fence_amended_witness :
    ¬ (500000 : ℚ) ∈ fenceFilter [(40000 : ℚ), 45000, 50000, 55000, 500000] := by
  have hs : List.Sorted (· ≤ ·) [(40000 : ℚ), 45000, 50000, 55000, 500000] := by
    decide
  have hq1 : percentile [(40000 : ℚ), 45000, 50000, 55000, 500000] (1/4) = 45000 := by
    rw [percentile_at_nat _ _ 1 (by simp) (by norm_num)]
    rfl
  have hq3 : percentile [(40000 : ℚ), 45000, 50000, 55000, 500000] (3/4) = 55000 := by
    rw [percentile_at_nat _ _ 3 (by simp) (by norm_num)]
    rfl
  have hcut : highFence [(40000 : ℚ), 45000, 50000, 55000, 500000] = 70000 := by
    unfold highFence iqrOf
    rw [hq1, hq3]
    norm_num
  have hiqr : 0 < iqrOf [(40000 : ℚ), 45000, 50000, 55000, 500000] := by
    unfold iqrOf
    rw [hq1, hq3]
    norm_num
  have h3 : 3 ≤ (List.filter
      (fun x => decide (x ≤ highFence [(40000 : ℚ), 45000, 50000, 55000, 500000]))
      [(40000 : ℚ), 45000, 50000, 55000, 500000]).length := by
    rw [hcut]
    decide
  have hiff := (((salary_stats_fence_amended
      [(40000 : ℚ), 45000, 50000, 55000, 500000] hs).1 (by decide)).1 hiqr).1 h3 500000
  intro hmem
  have h := (hiff.mp hmem).2
  rw [hcut] at h
  norm_num at h

/-- C3 counterexample: the claim as stated applies the fence to every
sample of at least four values, but when the interquartile range is zero
the code skips it: with surviving values of thirteen thousand four times
and twenty thousand, the twenty thousand exceeds the fence yet stays in
the summary, whose maximum is twenty thousand. -/
theorem salary_stats_fence_counterexample :
    4 ≤ (pySort (survivors fiveFlatRecs)).length ∧
    highFence (pySort (survivors fiveFlatRecs)) < 20000 ∧
    (20000 : ℚ) ∈ pySort (survivors fiveFlatRecs) ∧
    salary_stats fiveFlatRecs = ⟨5, some 14400, some 13000, some 13000, some 20000⟩ := by
  have hq1 : percentile [(13000 : ℚ), 13000, 13000, 13000, 20000] (1/4) = 13000 := by
    rw [percentile_at_nat _ _ 1 (by simp) (by norm_num)]
    rfl
  have hq3 : percentile [(13000 : ℚ), 13000, 13000, 13000, 20000] (3/4) = 13000 := by
    rw [percentile_at_nat _ _ 3 (by simp) (by norm_num)]
    rfl
  have hsur : pySort (survivors fiveFlatRecs) = [(13000 : ℚ), 13000, 13000, 13000, 20000] := by
    decide
  refine ⟨by rw [hsur]; decide, ?_, by rw [hsur]; decide, ?_⟩
  · rw [hsur]
    unfold highFence iqrOf
    rw [hq1, hq3]
    norm_num
  · have hfence : fenceFilter [(13000 : ℚ), 13000, 13000, 13000, 20000] =
        [(13000 : ℚ), 13000, 13000, 13000, 20000] := by
      simp only [fenceFilter]
      rw [hq1, hq3]
      norm_num
    have hA : salary_stats fiveFlatRecs =
        (if survivors fiveFlatRecs = [] then ⟨0, none, none, none, none⟩
         else statsOfSorted
           (if fenceFilter (pySort (survivors fiveFlatRecs)) = []
            then pySort (survivors fiveFlatRecs)
            else fenceFilter (pySort (survivors fiveFlatRecs)))) := rfl
    rw [hA]
    rw [show survivors fiveFlatRecs = [(13000 : ℚ), 13000, 13000, 13000, 20000]
        from by decide]
    rw [show pySort [(13000 : ℚ), 13000, 13000, 13000, 20000] =
        [(13000 : ℚ), 13000, 13000, 13000, 20000] from by decide]
    rw [hfence]
    rw [if_neg (by simp), if_neg (by simp)]
    simp only [statsOfSorted, medianSorted]
    norm_num [round2, pyRound, List.sum_cons, List.sum_nil, List.getD, List.get?]
